import Mathlib

/-
Verification of the imperial-cs-expense-filler frontend orchestration.

The repository ships two variants of the Next.js frontend: a flat-record
variant (frontend/app/page.tsx, both halves) and a sectioned variant
(the types library and the sectioned ReceiptReview component).  The model
below embeds both: namespace Flat embeds the flat-record page orchestrator
(processAllReceipts / processOne / handleReparse and the placeholder
record built after retry exhaustion); namespace Sectioned embeds the
sectioned data model (TypeSpecificFields, createEmptyFields,
createEmptyParsedReceipt) and the updateField reconciler of the sectioned
ReceiptReview component.

JavaScript arrays are lists; the functional updates the code performs via
prev.map((r, i) => ...) are embedded by jsMapIdx below.  JavaScript
dynamic field values (string | number | boolean | null after TypeScript
erasure) are embedded by the JsVal type.  Fallible network calls are
embedded as Except values supplied by an oracle parameter.
-/

/-- A JavaScript runtime value as stored in the sectioned field records:
the TypeScript field types string | null, number | null and boolean all
erase to dynamic values at runtime. -/
inductive JsVal where
  | null
  | str (s : String)
  | num (q : Rat)
  | bool (b : Bool)
deriving DecidableEq, Repr

/-- Embedding of JavaScript Array.prototype.map with the index argument,
prev.map((r, i) => f i r), unrolled from a starting index. -/
def jsMapIdxFrom (f : Nat → α → α) : Nat → List α → List α
  | _, [] => []
  | i, a :: l => f i a :: jsMapIdxFrom f (i + 1) l

/-- prev.map((r, i) => f i r) over the whole array. -/
def jsMapIdx (f : Nat → α → α) (l : List α) : List α := jsMapIdxFrom f 0 l

/-- Embedding of receipts.map((r, idx) => (idx, r)) from a starting index. -/
def enumFrom : Nat → List α → List (Nat × α)
  | _, [] => []
  | i, a :: l => (i, a) :: enumFrom (i + 1) l

namespace Flat

/-- The flat ParsedReceipt interface (page.tsx, second half, lines 361-372).
The interface declares is_non_uk_eu : boolean, but the emptyParsed object
literal in processOne omits that key, so at runtime the field may be
undefined; it is therefore embedded as an Option. -/
structure ParsedReceipt where
  expense_type : String
  amount : Rat
  currency : String
  date : String
  vendor : String
  description : String
  guest_count : Option Rat
  is_group_expense : Bool
  confidence : String
  is_non_uk_eu : Option Bool
deriving DecidableEq, Repr

/-- The Receipt interface (page.tsx lines 374-383) together with the
file handle the upload handler attaches (Receipt and file?: File); the
opaque File object is embedded as a String. -/
structure Receipt where
  id : String
  filename : String
  image_base64 : String
  thumbnail_base64 : String
  parsed : Option ParsedReceipt
  approved : Bool
  processing : Bool
  error : Option String
  file : Option String
deriving DecidableEq, Repr

/-- The JSON body a successful /api/parse-receipt call returns
(the fields processOne reads from data). -/
structure ServerData where
  image_base64 : String
  thumbnail_base64 : String
  parsed : ParsedReceipt
deriving DecidableEq, Repr

/-- page.tsx line 481. -/
def MAX_RETRIES : Nat := 3

/-- The placeholder record processOne builds after all retries fail
(page.tsx lines 529-539).  The literal is annotated ParsedReceipt but
omits the is_non_uk_eu key, hence none here; today stands for
new Date().toISOString().split('T')[0]. -/
def emptyParsed (today : String) : ParsedReceipt :=
  { expense_type := "OTHER"
    amount := 0
    currency := "USD"
    date := today
    vendor := "Unknown"
    description := "Failed to parse after 3 attempts - please fill manually"
    guest_count := none
    is_group_expense := false
    confidence := "low"
    is_non_uk_eu := none }

/-- The retry loop of processOne (page.tsx lines 487-526): attempts are
numbered from 1; on success the loop exits with the data, otherwise
lastError is replaced and the next attempt runs, up to the remaining
count.  The 1-second delay between attempts is real time and has no
effect on the resulting state, so it is not modelled. -/
def retryLoop (call : Nat → Except String ServerData) :
    Nat → String → Nat → Except String ServerData
  | _, lastError, 0 => .error lastError
  | attempt, _, remaining + 1 =>
    match call attempt with
    | .ok data => .ok data
    | .error e => retryLoop call (attempt + 1) e remaining

/-- processOne (page.tsx lines 484-553): runs the retry loop for the
receipt at index idx; on success it writes the returned data into that
receipt, on exhaustion it writes the emptyParsed placeholder and an
error message.  call abstracts the /api/parse-receipt fetch for this
receipt, indexed by attempt number. -/
def processOne (call : Nat → Except String ServerData) (today : String)
    (rs : List Receipt) (idx : Nat) : List Receipt :=
  match retryLoop call 1 "" MAX_RETRIES with
  | .ok data =>
      jsMapIdx (fun i r =>
        if i = idx then
          { r with image_base64 := data.image_base64
                   thumbnail_base64 := data.thumbnail_base64
                   parsed := some data.parsed
                   processing := false
                   error := none }
        else r) rs
  | .error e =>
      jsMapIdx (fun i r =>
        if i = idx then
          { r with parsed := some (emptyParsed today)
                   processing := false
                   error := some ("Failed after " ++ toString MAX_RETRIES
                     ++ " attempts: " ++ e) }
        else r) rs

/-- The toProcess filter of processAllReceipts (page.tsx lines 466-468):
receipts with no parsed record and an attached file, paired with their
indices. -/
def toProcess (rs : List Receipt) : List (Nat × Receipt) :=
  (enumFrom 0 rs).filter (fun p => p.2.parsed.isNone && p.2.file.isSome)

/-- processAllReceipts (page.tsx lines 464-566): marks every toProcess
receipt as processing, then runs processOne for each of them.  The
per-receipt calls run in parallel in the source but each one only ever
rewrites its own index, so the final state equals the sequential
composition.  oracle gives, per receipt index and attempt number, the
outcome of the fetch. -/
def processAllReceipts (oracle : Nat → Nat → Except String ServerData)
    (today : String) (rs : List Receipt) : List Receipt :=
  let tp := toProcess rs
  let marked := jsMapIdx (fun i r =>
    if tp.any (fun p => p.1 = i) then { r with processing := true } else r) rs
  tp.foldl (fun acc p => processOne (oracle p.1) today acc p.1) marked

/-- handleReparse (page.tsx lines 568-609): marks the receipt at index
as processing, issues the /api/reparse call (abstracted as outcome), and
on success replaces the parsed record while on failure it records the
error message; either way processing ends false. -/
def handleReparse (rs : List Receipt) (index : Nat)
    (outcome : Except String ParsedReceipt) : List Receipt :=
  let rs1 := jsMapIdx (fun i r =>
    if i = index then { r with processing := true } else r) rs
  match outcome with
  | .ok p =>
      jsMapIdx (fun i r =>
        if i = index then
          { r with parsed := some p, processing := false, error := none }
        else r) rs1
  | .error e =>
      jsMapIdx (fun i r =>
        if i = index then { r with processing := false, error := some e }
        else r) rs1

end Flat

namespace Sectioned

/-- active_section union type (types library). -/
inductive ActiveSection where
  | travel_general
  | travel_mileage
  | hospitality
  | other
deriving DecidableEq, Repr

/-- TravelGeneralFields (types library): date, mode, from_location,
to_location, foreign_currency are string | null, sterling_total is
number | null, is_return and is_non_uk_eu are boolean; all held as
JavaScript runtime values. -/
structure TravelGeneralFields where
  date : JsVal
  mode : JsVal
  is_return : JsVal
  from_location : JsVal
  to_location : JsVal
  foreign_currency : JsVal
  sterling_total : JsVal
  is_non_uk_eu : JsVal
deriving DecidableEq, Repr

/-- TravelMileageFields (types library). -/
structure TravelMileageFields where
  date : JsVal
  miles : JsVal
  is_return : JsVal
  from_location : JsVal
  to_location : JsVal
  cost_per_mile : JsVal
deriving DecidableEq, Repr

/-- HospitalityFields (types library). -/
structure HospitalityFields where
  date : JsVal
  principal_guest : JsVal
  organisation : JsVal
  total_numbers : JsVal
  foreign_currency : JsVal
  sterling_total : JsVal
  non_college_staff : JsVal
deriving DecidableEq, Repr

/-- OtherFields (types library). -/
structure OtherFields where
  date : JsVal
  expense_type : JsVal
  description : JsVal
  foreign_currency : JsVal
  sterling_total : JsVal
  is_non_uk_eu : JsVal
deriving DecidableEq, Repr

/-- TypeSpecificFields (types library): the four section sub-records. -/
structure TypeSpecificFields where
  travel_general : TravelGeneralFields
  travel_mileage : TravelMileageFields
  hospitality : HospitalityFields
  other : OtherFields
deriving DecidableEq, Repr

/-- The field names of the travel_general section. -/
inductive TGField where
  | date | mode | is_return | from_location | to_location
  | foreign_currency | sterling_total | is_non_uk_eu
deriving DecidableEq, Repr

/-- The field names of the travel_mileage section. -/
inductive TMField where
  | date | miles | is_return | from_location | to_location | cost_per_mile
deriving DecidableEq, Repr

/-- The field names of the hospitality section. -/
inductive HField where
  | date | principal_guest | organisation | total_numbers
  | foreign_currency | sterling_total | non_college_staff
deriving DecidableEq, Repr

/-- The field names of the other section. -/
inductive OField where
  | date | expense_type | description | foreign_currency
  | sterling_total | is_non_uk_eu
deriving DecidableEq, Repr

/-- A (section, field) pair naming one editable field, as passed to
updateField by the Field onChange handlers of ReceiptReview. -/
inductive SectionField where
  | travel_general (f : TGField)
  | travel_mileage (f : TMField)
  | hospitality (f : HField)
  | other (f : OField)
deriving DecidableEq, Repr

/-- The section a (section, field) pair belongs to. -/
def sectionOf : SectionField → ActiveSection
  | .travel_general _ => .travel_general
  | .travel_mileage _ => .travel_mileage
  | .hospitality _ => .hospitality
  | .other _ => .other

/-- Read one travel_general field. -/
def TravelGeneralFields.get (r : TravelGeneralFields) : TGField → JsVal
  | .date => r.date
  | .mode => r.mode
  | .is_return => r.is_return
  | .from_location => r.from_location
  | .to_location => r.to_location
  | .foreign_currency => r.foreign_currency
  | .sterling_total => r.sterling_total
  | .is_non_uk_eu => r.is_non_uk_eu

/-- The computed member update spread of updateField restricted to a
travel_general record: all keys of r, with f replaced by v. -/
def TravelGeneralFields.set (r : TravelGeneralFields) : TGField → JsVal → TravelGeneralFields
  | .date, v => { r with date := v }
  | .mode, v => { r with mode := v }
  | .is_return, v => { r with is_return := v }
  | .from_location, v => { r with from_location := v }
  | .to_location, v => { r with to_location := v }
  | .foreign_currency, v => { r with foreign_currency := v }
  | .sterling_total, v => { r with sterling_total := v }
  | .is_non_uk_eu, v => { r with is_non_uk_eu := v }

/-- Read one travel_mileage field. -/
def TravelMileageFields.get (r : TravelMileageFields) : TMField → JsVal
  | .date => r.date
  | .miles => r.miles
  | .is_return => r.is_return
  | .from_location => r.from_location
  | .to_location => r.to_location
  | .cost_per_mile => r.cost_per_mile

/-- Update one travel_mileage field. -/
def TravelMileageFields.set (r : TravelMileageFields) : TMField → JsVal → TravelMileageFields
  | .date, v => { r with date := v }
  | .miles, v => { r with miles := v }
  | .is_return, v => { r with is_return := v }
  | .from_location, v => { r with from_location := v }
  | .to_location, v => { r with to_location := v }
  | .cost_per_mile, v => { r with cost_per_mile := v }

/-- Read one hospitality field. -/
def HospitalityFields.get (r : HospitalityFields) : HField → JsVal
  | .date => r.date
  | .principal_guest => r.principal_guest
  | .organisation => r.organisation
  | .total_numbers => r.total_numbers
  | .foreign_currency => r.foreign_currency
  | .sterling_total => r.sterling_total
  | .non_college_staff => r.non_college_staff

/-- Update one hospitality field. -/
def HospitalityFields.set (r : HospitalityFields) : HField → JsVal → HospitalityFields
  | .date, v => { r with date := v }
  | .principal_guest, v => { r with principal_guest := v }
  | .organisation, v => { r with organisation := v }
  | .total_numbers, v => { r with total_numbers := v }
  | .foreign_currency, v => { r with foreign_currency := v }
  | .sterling_total, v => { r with sterling_total := v }
  | .non_college_staff, v => { r with non_college_staff := v }

/-- Read one other-section field. -/
def OtherFields.get (r : OtherFields) : OField → JsVal
  | .date => r.date
  | .expense_type => r.expense_type
  | .description => r.description
  | .foreign_currency => r.foreign_currency
  | .sterling_total => r.sterling_total
  | .is_non_uk_eu => r.is_non_uk_eu

/-- Update one other-section field. -/
def OtherFields.set (r : OtherFields) : OField → JsVal → OtherFields
  | .date, v => { r with date := v }
  | .expense_type, v => { r with expense_type := v }
  | .description, v => { r with description := v }
  | .foreign_currency, v => { r with foreign_currency := v }
  | .sterling_total, v => { r with sterling_total := v }
  | .is_non_uk_eu, v => { r with is_non_uk_eu := v }

/-- Read parsed.fields[section][field]. -/
def getField (fs : TypeSpecificFields) : SectionField → JsVal
  | .travel_general f => fs.travel_general.get f
  | .travel_mileage f => fs.travel_mileage.get f
  | .hospitality f => fs.hospitality.get f
  | .other f => fs.other.get f

/-- The nested spread of updateField: all sections of fs, with the one
section the pair names replaced by that section with the named field
replaced by v. -/
def setField (fs : TypeSpecificFields) : SectionField → JsVal → TypeSpecificFields
  | .travel_general f, v => { fs with travel_general := fs.travel_general.set f v }
  | .travel_mileage f, v => { fs with travel_mileage := fs.travel_mileage.set f v }
  | .hospitality f, v => { fs with hospitality := fs.hospitality.set f v }
  | .other f, v => { fs with other := fs.other.set f v }

/-- ChatMessage (types library); the role union 'user' | 'assistant' is
held as a String. -/
structure ChatMessage where
  role : String
  content : String
deriving DecidableEq, Repr

/-- The sectioned ParsedReceipt (types library). -/
structure ParsedReceipt where
  active_section : ActiveSection
  confidence : String
  raw_description : String
  fields : TypeSpecificFields
deriving DecidableEq, Repr

/-- The sectioned Receipt (types library). -/
structure Receipt where
  id : String
  filename : String
  image_base64 : String
  thumbnail_base64 : String
  parsed : Option ParsedReceipt
  approved : Bool
  processing : Bool
  error : Option String
  chat_history : List ChatMessage
deriving DecidableEq, Repr

/-- createEmptyFields (types library lines 487-525): every string and
numeric field null, every boolean field false. -/
def createEmptyFields : TypeSpecificFields :=
  { travel_general :=
      { date := .null, mode := .null, is_return := .bool false
        from_location := .null, to_location := .null
        foreign_currency := .null, sterling_total := .null
        is_non_uk_eu := .bool false }
    travel_mileage :=
      { date := .null, miles := .null, is_return := .bool false
        from_location := .null, to_location := .null
        cost_per_mile := .null }
    hospitality :=
      { date := .null, principal_guest := .null, organisation := .null
        total_numbers := .null, foreign_currency := .null
        sterling_total := .null, non_college_staff := .bool false }
    other :=
      { date := .null, expense_type := .null, description := .null
        foreign_currency := .null, sterling_total := .null
        is_non_uk_eu := .bool false } }

/-- createEmptyParsedReceipt (types library lines 527-534). -/
def createEmptyParsedReceipt : ParsedReceipt :=
  { active_section := .other
    confidence := "low"
    raw_description := ""
    fields := createEmptyFields }

/-- updateField of the sectioned ReceiptReview (lines 182-206): writes
the value into the named field of the named section, and if that section
is not the active one and the value is a real value (not null, not the
empty string, not false) it also switches the active section. -/
def updateField (parsed : ParsedReceipt) (sf : SectionField) (value : JsVal) :
    ParsedReceipt :=
  let newParsed : ParsedReceipt := { parsed with fields := setField parsed.fields sf value }
  if sectionOf sf ≠ parsed.active_section ∧ value ≠ .null ∧
      value ≠ .str "" ∧ value ≠ .bool false then
    { newParsed with active_section := sectionOf sf }
  else
    newParsed

/-- The section tag a refine call corrects, replacing that section of
the prior record's fields with the corrected one; used by the
spec-modelled refine below. -/
def replaceSection (fs : TypeSpecificFields) (target : ActiveSection)
    (corrected : TypeSpecificFields) : TypeSpecificFields :=
  match target with
  | .travel_general => { fs with travel_general := corrected.travel_general }
  | .travel_mileage => { fs with travel_mileage := corrected.travel_mileage }
  | .hospitality => { fs with hospitality := corrected.hospitality }
  | .other => { fs with other := corrected.other }

/-- Modelled from the spec: the backend refine operation
(backend/services/vlm_client.py refine_receipt, reached through POST
/api/reparse) is not under src/.  Spec 4.2-4.3 and 8: refine takes the
prior structured record plus a correction and returns an updated record;
the corrected section becomes active, and field values in sections other
than the one being corrected are never discarded.  target names the
corrected section, corrected carries its new sub-record, conf and desc
the returned confidence and raw description. -/
def refine (prior : ParsedReceipt) (target : ActiveSection)
    (corrected : TypeSpecificFields) (conf desc : String) : ParsedReceipt :=
  { active_section := target
    confidence := conf
    raw_description := desc
    fields := replaceSection prior.fields target corrected }

/-- Modelled from the spec: the sectioned variant's page orchestrator is
not under src/ (only the flat page.tsx is); this mirrors the flat
handleReparse (page.tsx lines 568-609) over the sectioned Receipt, as
spec 6 prescribes for POST /reparse: mark the receipt processing, issue
the call, then either replace the parsed record or record the error. -/
def handleReparse (rs : List Receipt) (index : Nat)
    (outcome : Except String ParsedReceipt) : List Receipt :=
  let rs1 := jsMapIdx (fun i r =>
    if i = index then { r with processing := true } else r) rs
  match outcome with
  | .ok p =>
      jsMapIdx (fun i r =>
        if i = index then
          { r with parsed := some p, processing := false, error := none }
        else r) rs1
  | .error e =>
      jsMapIdx (fun i r =>
        if i = index then { r with processing := false, error := some e }
        else r) rs1

end Sectioned

namespace Sectioned

/-- HeaderInfo of the sectioned variant (types library lines 471-484);
every field, including exchange_rate, is a string. -/
structure HeaderInfo where
  name : String
  cid : String
  dob : String
  address : String
  postcode : String
  bank_name : String
  bank_branch : String
  sort_code : String
  account_number : String
  foreign_currency : String
  exchange_rate : String
  purpose : String
deriving DecidableEq, Repr

end Sectioned

namespace ReviewUI

/-- The part of the ReceiptReview state that decides whether a re-parse
request goes out: the input text, whether the current receipt has a
parsed record, and its processing flag. -/
structure ReviewState where
  userInput : String
  hasParsed : Bool
  processing : Bool
deriving DecidableEq, Repr

/-- A user interaction with the re-parse controls: clicking the Apply
button or a key press inside the chat input (sectioned ReceiptReview),
or clicking the Re-parse button (flat ReceiptReview). -/
inductive UIEvent where
  | clickApply
  | keyDown (key : String)
  | clickReparse
deriving DecidableEq, Repr

/-- A JavaScript whitespace character as String.prototype.trim removes
(the common ASCII ones suffice for this model). -/
def isJsWs (c : Char) : Bool :=
  c = ' ' || c = '\t' || c = '\n' || c = '\r' || c = '\x0c'

/-- userInput.trim(): leading and trailing whitespace removed. -/
def jsTrim (s : String) : String :=
  String.mk (((s.data.dropWhile isJsWs).reverse.dropWhile isJsWs).reverse)

/-- The conditional-rendering guard of the sectioned ReceiptReview
(line 297): the whole block holding the four section editors, the VLM
chat input and the Apply button is only mounted when the receipt has a
parsed record and is not processing; while it is unmounted none of its
handlers exist, so no event on those controls can occur. -/
def chatMounted (s : ReviewState) : Bool :=
  s.hasParsed && !s.processing

/-- The Apply button's disabled expression (sectioned ReceiptReview line
547) and the flat Re-parse button's (flat ReceiptReview line 198):
disabled when the trimmed input is empty or the receipt is
processing. -/
def applyDisabled (s : ReviewState) : Bool :=
  jsTrim s.userInput == "" || s.processing

/-- The guard inside the component's handleReparse (sectioned lines
208-212, flat lines 32-36): the request is only issued when the trimmed
input is nonempty. -/
def handleReparseFires (s : ReviewState) : Bool :=
  !(jsTrim s.userInput == "")

/-- Whether an event issues a re-parse request in state s.  A click on
the Apply button requires the chat block to be mounted and the button
enabled; a key press in the chat input requires the block to be mounted
and runs the onKeyDown handler of line 543, which calls handleReparse
when the key is Enter; a click on the flat variant's Re-parse button
(always mounted) only reaches its handler when the button is enabled. -/
def issuesReparse : UIEvent → ReviewState → Bool
  | .clickApply, s => chatMounted s && !applyDisabled s && handleReparseFires s
  | .keyDown k, s => chatMounted s && (k == "Enter") && handleReparseFires s
  | .clickReparse, s => !applyDisabled s && handleReparseFires s

end ReviewUI

namespace Gen

open Sectioned

/-- One approved receipt as sent to POST /api/generate. -/
structure GenReceipt where
  filename : String
  image_base64 : String
  parsed : ParsedReceipt
deriving DecidableEq, Repr

/-- Modelled from the spec: the backend template filler
(backend/services/excel_generator.py, fill_excel_template and
create_output_zip) is not under src/.  The definitions below follow
spec 4.4 and the E1 section table of the repository docs: each section
has a fixed first row and a fixed row capacity. -/
def sectionFirstRow : ActiveSection → Nat
  | .travel_general => 13
  | .travel_mileage => 23
  | .hospitality => 32
  | .other => 41

/-- Modelled from the spec: row capacity of each template region
(travel 13-18, mileage 23-26, hospitality 32-35, other 41-47). -/
def sectionCapacity : ActiveSection → Nat
  | .travel_general => 6
  | .travel_mileage => 4
  | .hospitality => 4
  | .other => 7

/-- Modelled from the spec: the section tag used in renamed receipt
filenames (readme example HOSPITALITY_2025-12-05_monzu_199.61USD.png). -/
def sectionTag : ActiveSection → String
  | .travel_general => "TRAVEL"
  | .travel_mileage => "MILEAGE"
  | .hospitality => "HOSPITALITY"
  | .other => "OTHER"

/-- Modelled from the spec: the column order in which a section's fields
are written into its template region. -/
def sectionFieldNames : ActiveSection → List SectionField
  | .travel_general =>
      [.travel_general .date, .travel_general .mode, .travel_general .is_return,
       .travel_general .from_location, .travel_general .to_location,
       .travel_general .foreign_currency, .travel_general .sterling_total,
       .travel_general .is_non_uk_eu]
  | .travel_mileage =>
      [.travel_mileage .date, .travel_mileage .miles, .travel_mileage .is_return,
       .travel_mileage .from_location, .travel_mileage .to_location,
       .travel_mileage .cost_per_mile]
  | .hospitality =>
      [.hospitality .date, .hospitality .principal_guest, .hospitality .organisation,
       .hospitality .total_numbers, .hospitality .foreign_currency,
       .hospitality .sterling_total, .hospitality .non_college_staff]
  | .other =>
      [.other .date, .other .expense_type, .other .description,
       .other .foreign_currency, .other .sterling_total, .other .is_non_uk_eu]

/-- Modelled from the spec: how a field value is written into a cell. -/
def cellText : JsVal → String
  | .null => ""
  | .str s => s
  | .num q => toString q
  | .bool b => if b then "YES" else ""

/-- Modelled from the spec: the rows of one template region, one row per
approved receipt whose active section is s, as (row, column, text)
triples; a region with more receipts than rows is an explicit
capacity-overflow error. -/
def sectionRows (s : ActiveSection) (receipts : List GenReceipt) :
    Except String (List (Nat × Nat × String)) :=
  let mine := receipts.filter (fun r => r.parsed.active_section == s)
  if sectionCapacity s < mine.length then
    .error ("Capacity of section " ++ sectionTag s ++ " exceeded")
  else
    .ok ((enumFrom 0 mine).flatMap (fun p =>
      (enumFrom 0 (sectionFieldNames s)).map (fun q =>
        (sectionFirstRow s + p.1, q.1, cellText (getField p.2.parsed.fields q.2)))))

/-- Modelled from the spec: the shared header area, populated once with
claimant, banking and currency-conversion details. -/
def headerCells (h : HeaderInfo) : List (Nat × Nat × String) :=
  [(3, 2, h.name), (3, 5, h.cid), (4, 2, h.dob), (5, 2, h.address),
   (6, 2, h.postcode), (7, 2, h.bank_name), (7, 5, h.bank_branch),
   (8, 2, h.sort_code), (8, 5, h.account_number), (9, 2, h.foreign_currency),
   (9, 5, h.exchange_rate), (10, 2, h.purpose)]

/-- Modelled from the spec: the signature block, holding the claimant's
name and the generation date. -/
def signatureCells (h : HeaderInfo) (genDate : String) : List (Nat × Nat × String) :=
  [(50, 2, h.name), (50, 5, genDate)]

/-- Modelled from the spec: fill_excel_template, the full cell content
of the filled document. -/
def fillExcelTemplate (h : HeaderInfo) (receipts : List GenReceipt)
    (genDate : String) : Except String (List (Nat × Nat × String)) := do
  let tg ← sectionRows .travel_general receipts
  let tm ← sectionRows .travel_mileage receipts
  let hosp ← sectionRows .hospitality receipts
  let oth ← sectionRows .other receipts
  return headerCells h ++ tg ++ tm ++ hosp ++ oth ++ signatureCells h genDate

/-- Modelled from the spec: the date component of a renamed file. -/
def fileDate : ActiveSection → TypeSpecificFields → String
  | .travel_general, fs => cellText fs.travel_general.date
  | .travel_mileage, fs => cellText fs.travel_mileage.date
  | .hospitality, fs => cellText fs.hospitality.date
  | .other, fs => cellText fs.other.date

/-- Modelled from the spec: the vendor/description token of a renamed
file. -/
def fileToken : ActiveSection → TypeSpecificFields → String
  | .travel_general, fs => cellText fs.travel_general.to_location
  | .travel_mileage, fs => cellText fs.travel_mileage.to_location
  | .hospitality, fs => cellText fs.hospitality.organisation
  | .other, fs => cellText fs.other.description

/-- Modelled from the spec: the amount-plus-currency component of a
renamed file. -/
def fileAmount : ActiveSection → TypeSpecificFields → String
  | .travel_general, fs => cellText fs.travel_general.foreign_currency
  | .travel_mileage, fs => cellText fs.travel_mileage.miles
  | .hospitality, fs => cellText fs.hospitality.foreign_currency
  | .other, fs => cellText fs.other.foreign_currency

/-- Modelled from the spec: the deterministic renamed filename, section
tag, date, token and amount joined by underscores. -/
def renameFile (r : GenReceipt) : String :=
  let s := r.parsed.active_section
  sectionTag s ++ "_" ++ fileDate s r.parsed.fields ++ "_"
    ++ fileToken s r.parsed.fields ++ "_" ++ fileAmount s r.parsed.fields ++ ".png"

/-- The produced archive: the filled document's cells, the renamed
receipt files with their contents, and the archive metadata timestamp
(the only part that depends on wall-clock time). -/
structure Archive where
  documentCells : List (Nat × Nat × String)
  files : List (String × String)
  metaTimestamp : Nat
deriving DecidableEq, Repr

/-- Modelled from the spec: create_output_zip, bundling the filled
document and the renamed receipt images, stamping the archive entries
with the wall-clock timestamp now. -/
def createOutputZip (h : HeaderInfo) (receipts : List GenReceipt)
    (genDate : String) (now : Nat) : Except String Archive :=
  match fillExcelTemplate h receipts genDate with
  | .error e => .error e
  | .ok cells =>
      .ok { documentCells := cells
            files := receipts.map (fun r => (renameFile r, r.image_base64))
            metaTimestamp := now }

end Gen

namespace HeaderStore

/-- HeaderInfo of the flat variant (page.tsx lines 385-397), the record
stored to browser-local storage; every field is a string. -/
structure HeaderInfo where
  name : String
  cid : String
  dob : String
  address : String
  postcode : String
  bank_name : String
  bank_branch : String
  sort_code : String
  account_number : String
  foreign_currency : String
  exchange_rate : String
deriving DecidableEq, Repr

/-
The save effect stores JSON.stringify(headerInfo) under the key
expenseHeaderInfo (page.tsx lines 443-446) and the state initializer
returns JSON.parse(saved) verbatim, with no migration (lines 407-425).
JSON.stringify and JSON.parse are the engine's: they are modelled
concretely below for flat objects of string values, with string escaping
as ECMA-262 prescribes (quote, backslash, the control shorthands and
backslash-u escapes for the remaining control characters).  stringify
emits no whitespace, so the parsing model needs none; backslash-u
escapes that do not denote a Unicode scalar value are rejected rather
than combined into surrogate pairs, which never arise here because
stringify only emits them for code points below 0x20.
-/

/-- One hexadecimal digit character, lowercase as the engine emits. -/
def toHexDigit (n : Nat) : Char :=
  Char.ofNat (if n < 10 then '0'.toNat + n else 'a'.toNat + (n - 10))

/-- JSON.stringify's escaping of one string character. -/
def escapeChar (c : Char) : List Char :=
  if c = '"' then ['\\', '"']
  else if c = '\\' then ['\\', '\\']
  else if c = '\x08' then ['\\', 'b']
  else if c = '\t' then ['\\', 't']
  else if c = '\n' then ['\\', 'n']
  else if c = '\x0c' then ['\\', 'f']
  else if c = '\r' then ['\\', 'r']
  else if c.toNat < 0x20 then
    ['\\', 'u', '0', '0', toHexDigit (c.toNat / 16), toHexDigit (c.toNat % 16)]
  else [c]

/-- A string rendered as a JSON string literal, quotes included. -/
def quoteString (s : String) : List Char :=
  '"' :: (s.data.flatMap escapeChar ++ ['"'])

/-- One key: value member of the stored object. -/
def memberChars (key value : String) : List Char :=
  quoteString key ++ ':' :: quoteString value

/-- The members joined by commas, as JSON.stringify emits them. -/
def encodePairs : List (String × String) → List Char
  | [] => []
  | [p] => memberChars p.1 p.2
  | p :: q :: ps => memberChars p.1 p.2 ++ ',' :: encodePairs (q :: ps)

/-- The key-value pairs of the stored header object, in the property
creation order of the state initializer, which JSON.stringify preserves. -/
def headerPairs (h : HeaderInfo) : List (String × String) :=
  [("name", h.name), ("cid", h.cid), ("dob", h.dob), ("address", h.address),
   ("postcode", h.postcode), ("bank_name", h.bank_name),
   ("bank_branch", h.bank_branch), ("sort_code", h.sort_code),
   ("account_number", h.account_number), ("foreign_currency", h.foreign_currency),
   ("exchange_rate", h.exchange_rate)]

/-- JSON.stringify(headerInfo): the serialized object. -/
def stringifyHeader (h : HeaderInfo) : String :=
  String.mk ('{' :: (encodePairs (headerPairs h) ++ ['}']))

/-- The numeric value of one hexadecimal digit character. -/
def hexVal (c : Char) : Option Nat :=
  if '0' ≤ c ∧ c ≤ '9' then some (c.toNat - '0'.toNat)
  else if 'a' ≤ c ∧ c ≤ 'f' then some (c.toNat - 'a'.toNat + 10)
  else if 'A' ≤ c ∧ c ≤ 'F' then some (c.toNat - 'A'.toNat + 10)
  else none

/-- The character a single-character escape denotes. -/
def unescape1 (c : Char) : Option Char :=
  if c = '"' then some '"'
  else if c = '\\' then some '\\'
  else if c = '/' then some '/'
  else if c = 'b' then some '\x08'
  else if c = 't' then some '\t'
  else if c = 'n' then some '\n'
  else if c = 'f' then some '\x0c'
  else if c = 'r' then some '\r'
  else none

/-- The character for a code point when it is a Unicode scalar value. -/
def charOfCode (n : Nat) : Option Char :=
  if n.isValidChar then some (Char.ofNat n) else none

/-- Reads the body of a JSON string literal after its opening quote,
undoing the escapes, up to and including the closing quote; yields the
decoded characters and the remaining input. -/
def readStringBody : List Char → Option (List Char × List Char)
  | [] => none
  | '"' :: rest => some ([], rest)
  | '\\' :: 'u' :: a :: b :: c :: d :: rest => do
      let va ← hexVal a
      let vb ← hexVal b
      let vc ← hexVal c
      let vd ← hexVal d
      let ch ← charOfCode (((va * 16 + vb) * 16 + vc) * 16 + vd)
      let (s, r) ← readStringBody rest
      some (ch :: s, r)
  | '\\' :: e :: rest => do
      let ch ← unescape1 e
      let (s, r) ← readStringBody rest
      some (ch :: s, r)
  | c :: rest => do
      let (s, r) ← readStringBody rest
      some (c :: s, r)

/-- Reads the members of the stored object after its opening brace, each
a quoted key, a colon and a quoted value, separated by commas, ending at
the closing brace at the end of input; fuel bounds the number of
members. -/
def readMembers : Nat → List Char → Option (List (String × String))
  | 0, _ => none
  | fuel + 1, '"' :: rest => do
      let (k, r1) ← readStringBody rest
      match r1 with
      | ':' :: '"' :: r2 => do
          let (v, r3) ← readStringBody r2
          match r3 with
          | ',' :: r4 => do
              let ms ← readMembers fuel r4
              some ((String.mk k, String.mk v) :: ms)
          | ['}'] => some [(String.mk k, String.mk v)]
          | _ => none
      | _ => none
  | _ + 1, _ => none

/-- JSON.parse on the stored text, as the object's key-value pairs. -/
def parseHeaderText (s : String) : Option (List (String × String)) :=
  match s.data with
  | '{' :: rest => readMembers (rest.length + 1) rest
  | _ => none

/-- The parsed object read back as a HeaderInfo, exactly when its keys
are those of the interface in stored order; no migration or other
transformation is applied, mirroring the initializer's bare return of
JSON.parse(saved). -/
def toHeaderInfo : List (String × String) → Option HeaderInfo
  | [("name", name), ("cid", cid), ("dob", dob), ("address", address),
     ("postcode", postcode), ("bank_name", bank_name),
     ("bank_branch", bank_branch), ("sort_code", sort_code),
     ("account_number", account_number), ("foreign_currency", foreign_currency),
     ("exchange_rate", exchange_rate)] =>
      some { name, cid, dob, address, postcode, bank_name, bank_branch,
             sort_code, account_number, foreign_currency, exchange_rate }
  | _ => none

/-- The save effect: the string written to local storage. -/
def saveHeader (h : HeaderInfo) : String := stringifyHeader h

/-- The load path of the state initializer: parse the saved blob and
return it verbatim. -/
def loadHeader (saved : String) : Option HeaderInfo :=
  (parseHeaderText saved).bind toHeaderInfo

end HeaderStore

/-- A concrete freshly-uploaded receipt, used to instantiate the claim
theorems at concrete inputs. -/
def sampleFlatReceipt : Flat.Receipt :=
  { id := "a", filename := "r.png", image_base64 := "", thumbnail_base64 := ""
    parsed := none, approved := false, processing := false, error := none
    file := some ("bytes") }

/-- A concrete already-extracted receipt, used to instantiate the claim
theorems at concrete inputs. -/
def sampleParsedFlatReceipt : Flat.Receipt :=
  { id := "b", filename := "s.png", image_base64 := "img", thumbnail_base64 := "th"
    parsed := some
      { expense_type := "RAIL", amount := 45, currency := "USD"
        date := "2025-12-04", vendor := "Amtrak", description := "Train ticket"
        guest_count := none, is_group_expense := false, confidence := "high"
        is_non_uk_eu := some true }
    approved := false, processing := false, error := none
    file := some ("bytes2") }

/-- A concrete sectioned receipt holding the empty parsed record, used
to instantiate the claim theorems at concrete inputs. -/
def sampleSectionedReceipt : Sectioned.Receipt :=
  { id := "c", filename := "t.png", image_base64 := "img", thumbnail_base64 := "th"
    parsed := some Sectioned.createEmptyParsedReceipt
    approved := false, processing := false, error := none, chat_history := [] }

/-- A concrete corrected field set in which only the hospitality section
matters, used to instantiate the refine theorems. -/
def sampleCorrectedFields : Sectioned.TypeSpecificFields :=
  { Sectioned.createEmptyFields with
      hospitality :=
        { date := .str "2025-01-10", principal_guest := .str "Dr. Smith"
          organisation := .str "Imperial", total_numbers := .num 4
          foreign_currency := .null, sterling_total := .num ((241 : Rat) / 2)
          non_college_staff := .bool false } }

/-! Helper lemmas about the embedding combinators. -/

theorem String_mk_data (s : String) : String.mk s.data = s := rfl

theorem jsMapIdxFrom_get? (f : Nat → α → α) :
    ∀ (l : List α) (i j : Nat),
      (jsMapIdxFrom f i l)[j]? = (l[j]?).map (f (i + j))
  | [], _, _ => by simp [jsMapIdxFrom]
  | a :: l, i, 0 => by simp [jsMapIdxFrom]
  | a :: l, i, j + 1 => by
      have h : i + 1 + j = i + (j + 1) := by omega
      simp [jsMapIdxFrom, jsMapIdxFrom_get? f l (i + 1) j, h]

theorem jsMapIdx_get? (f : Nat → α → α) (l : List α) (j : Nat) :
    (jsMapIdx f l)[j]? = (l[j]?).map (f j) := by
  simpa using jsMapIdxFrom_get? f l 0 j

theorem jsMapIdxFrom_length (f : Nat → α → α) :
    ∀ (l : List α) (i : Nat), (jsMapIdxFrom f i l).length = l.length
  | [], _ => rfl
  | a :: l, i => by simp [jsMapIdxFrom, jsMapIdxFrom_length f l (i + 1)]

theorem jsMapIdx_length (f : Nat → α → α) (l : List α) :
    (jsMapIdx f l).length = l.length :=
  jsMapIdxFrom_length f l 0

theorem mem_enumFrom :
    ∀ (l : List α) (i : Nat) (p : Nat × α),
      p ∈ enumFrom i l ↔ ∃ k, p.1 = i + k ∧ l[k]? = some p.2
  | [], i, p => by simp [enumFrom]
  | a :: l, i, p => by
      simp only [enumFrom, List.mem_cons, mem_enumFrom l (i + 1) p]
      constructor
      · rintro (rfl | ⟨k, hk, hg⟩)
        · exact ⟨0, by simp⟩
        · exact ⟨k + 1, by omega, by simpa using hg⟩
      · rintro ⟨k, hk, hg⟩
        cases k with
        | zero =>
            left
            simp only [List.getElem?_cons_zero, Option.some.injEq] at hg
            obtain ⟨p1, p2⟩ := p
            simp_all
        | succ k =>
            right
            exact ⟨k, by omega, by simpa using hg⟩

/-! Frame lemmas for the sectioned field records. -/

theorem tg_get_set_ne (r : Sectioned.TravelGeneralFields)
    (f f' : Sectioned.TGField) (v : JsVal) (h : f' ≠ f) :
    (r.set f v).get f' = r.get f' := by
  cases f <;> cases f' <;>
    simp_all [Sectioned.TravelGeneralFields.set, Sectioned.TravelGeneralFields.get]

theorem tm_get_set_ne (r : Sectioned.TravelMileageFields)
    (f f' : Sectioned.TMField) (v : JsVal) (h : f' ≠ f) :
    (r.set f v).get f' = r.get f' := by
  cases f <;> cases f' <;>
    simp_all [Sectioned.TravelMileageFields.set, Sectioned.TravelMileageFields.get]

theorem hosp_get_set_ne (r : Sectioned.HospitalityFields)
    (f f' : Sectioned.HField) (v : JsVal) (h : f' ≠ f) :
    (r.set f v).get f' = r.get f' := by
  cases f <;> cases f' <;>
    simp_all [Sectioned.HospitalityFields.set, Sectioned.HospitalityFields.get]

theorem oth_get_set_ne (r : Sectioned.OtherFields)
    (f f' : Sectioned.OField) (v : JsVal) (h : f' ≠ f) :
    (r.set f v).get f' = r.get f' := by
  cases f <;> cases f' <;>
    simp_all [Sectioned.OtherFields.set, Sectioned.OtherFields.get]

theorem getField_setField_ne (fs : Sectioned.TypeSpecificFields)
    (sf sf' : Sectioned.SectionField) (v : JsVal) (h : sf' ≠ sf) :
    Sectioned.getField (Sectioned.setField fs sf v) sf' = Sectioned.getField fs sf' := by
  cases sf with
  | travel_general f =>
      cases sf' with
      | travel_general f' =>
          simp only [Sectioned.getField, Sectioned.setField]
          exact tg_get_set_ne _ f f' v (fun e => h (by rw [e]))
      | travel_mileage f' => simp [Sectioned.getField, Sectioned.setField]
      | hospitality f' => simp [Sectioned.getField, Sectioned.setField]
      | other f' => simp [Sectioned.getField, Sectioned.setField]
  | travel_mileage f =>
      cases sf' with
      | travel_general f' => simp [Sectioned.getField, Sectioned.setField]
      | travel_mileage f' =>
          simp only [Sectioned.getField, Sectioned.setField]
          exact tm_get_set_ne _ f f' v (fun e => h (by rw [e]))
      | hospitality f' => simp [Sectioned.getField, Sectioned.setField]
      | other f' => simp [Sectioned.getField, Sectioned.setField]
  | hospitality f =>
      cases sf' with
      | travel_general f' => simp [Sectioned.getField, Sectioned.setField]
      | travel_mileage f' => simp [Sectioned.getField, Sectioned.setField]
      | hospitality f' =>
          simp only [Sectioned.getField, Sectioned.setField]
          exact hosp_get_set_ne _ f f' v (fun e => h (by rw [e]))
      | other f' => simp [Sectioned.getField, Sectioned.setField]
  | other f =>
      cases sf' with
      | travel_general f' => simp [Sectioned.getField, Sectioned.setField]
      | travel_mileage f' => simp [Sectioned.getField, Sectioned.setField]
      | hospitality f' => simp [Sectioned.getField, Sectioned.setField]
      | other f' =>
          simp only [Sectioned.getField, Sectioned.setField]
          exact oth_get_set_ne _ f f' v (fun e => h (by rw [e]))

theorem updateField_fields_eq (p : Sectioned.ParsedReceipt)
    (sf : Sectioned.SectionField) (v : JsVal) :
    (Sectioned.updateField p sf v).fields = Sectioned.setField p.fields sf v := by
  unfold Sectioned.updateField
  split <;> rfl

theorem getField_replaceSection_ne (fs corrected : Sectioned.TypeSpecificFields)
    (target : Sectioned.ActiveSection) (sf : Sectioned.SectionField)
    (h : Sectioned.sectionOf sf ≠ target) :
    Sectioned.getField (Sectioned.replaceSection fs target corrected) sf =
      Sectioned.getField fs sf := by
  cases target <;> cases sf <;>
    simp_all [Sectioned.replaceSection, Sectioned.getField, Sectioned.sectionOf]

/-! Round-trip lemmas for the local-storage JSON model. -/

theorem hexVal_toHexDigit (d : Nat) (h : d < 16) :
    HeaderStore.hexVal (HeaderStore.toHexDigit d) = some d := by
  interval_cases d <;> decide

theorem readStringBody_escapeChar (c : Char) (rest : List Char) :
    HeaderStore.readStringBody (HeaderStore.escapeChar c ++ rest) =
      (HeaderStore.readStringBody rest).map (fun p => (c :: p.1, p.2)) := by
  by_cases h1 : c = '"'
  · subst h1
    cases hrest : HeaderStore.readStringBody rest <;>
      simp [HeaderStore.escapeChar, HeaderStore.readStringBody,
        HeaderStore.unescape1, hrest]
  · by_cases h2 : c = '\\'
    · subst h2
      cases hrest : HeaderStore.readStringBody rest <;>
        simp [HeaderStore.escapeChar, HeaderStore.readStringBody,
          HeaderStore.unescape1, hrest]
    · by_cases h3 : c = '\x08'
      · subst h3
        cases hrest : HeaderStore.readStringBody rest <;>
          simp [HeaderStore.escapeChar, HeaderStore.readStringBody,
            HeaderStore.unescape1, hrest]
      · by_cases h4 : c = '\t'
        · subst h4
          cases hrest : HeaderStore.readStringBody rest <;>
            simp [HeaderStore.escapeChar, HeaderStore.readStringBody,
              HeaderStore.unescape1, hrest]
        · by_cases h5 : c = '\n'
          · subst h5
            cases hrest : HeaderStore.readStringBody rest <;>
              simp [HeaderStore.escapeChar, HeaderStore.readStringBody,
                HeaderStore.unescape1, hrest]
          · by_cases h6 : c = '\x0c'
            · subst h6
              cases hrest : HeaderStore.readStringBody rest <;>
                simp [HeaderStore.escapeChar, HeaderStore.readStringBody,
                  HeaderStore.unescape1, hrest]
            · by_cases h7 : c = '\r'
              · subst h7
                cases hrest : HeaderStore.readStringBody rest <;>
                  simp [HeaderStore.escapeChar, HeaderStore.readStringBody,
                    HeaderStore.unescape1, hrest]
              · by_cases h8 : c.toNat < 0x20
                · have hesc : HeaderStore.escapeChar c =
                      ['\\', 'u', '0', '0', HeaderStore.toHexDigit (c.toNat / 16),
                        HeaderStore.toHexDigit (c.toNat % 16)] := by
                    simp [HeaderStore.escapeChar, h1, h2, h3, h4, h5, h6, h7, h8]
                  rw [hesc]
                  have hx1 : HeaderStore.hexVal (HeaderStore.toHexDigit (c.toNat / 16)) =
                      some (c.toNat / 16) :=
                    hexVal_toHexDigit _ (by omega)
                  have hx2 : HeaderStore.hexVal (HeaderStore.toHexDigit (c.toNat % 16)) =
                      some (c.toNat % 16) :=
                    hexVal_toHexDigit _ (Nat.mod_lt _ (by omega))
                  have hn : ((0 * 16 + 0) * 16 + c.toNat / 16) * 16 + c.toNat % 16 =
                      c.toNat := by omega
                  have hvalid : (c.toNat).isValidChar := Or.inl (by omega)
                  have h0 : HeaderStore.hexVal '0' = some 0 := by decide
                  have hn2 : c.toNat / 16 * 16 + c.toNat % 16 = c.toNat := by omega
                  cases hrest : HeaderStore.readStringBody rest <;>
                    simp [HeaderStore.readStringBody, h0, hx1, hx2, hn, hn2,
                      HeaderStore.charOfCode, hvalid, Char.ofNat_toNat, hrest]
                · have hesc : HeaderStore.escapeChar c = [c] := by
                    simp [HeaderStore.escapeChar, h1, h2, h3, h4, h5, h6, h7, h8]
                  rw [hesc]
                  rw [List.cons_append, List.nil_append]
                  rw [HeaderStore.readStringBody.eq_def]
                  cases hrest : HeaderStore.readStringBody rest <;>
                    simp_all

theorem readStringBody_encode (l : List Char) (rest : List Char) :
    HeaderStore.readStringBody (l.flatMap HeaderStore.escapeChar ++ '"' :: rest) =
      some (l, rest) := by
  induction l with
  | nil => simp [HeaderStore.readStringBody]
  | cons c l ih =>
      rw [List.flatMap_cons, List.append_assoc, readStringBody_escapeChar, ih]
      rfl

theorem readMembers_cons (fuel : Nat) (k v : String) (r4 : List Char) :
    HeaderStore.readMembers (fuel + 1) (HeaderStore.memberChars k v ++ (',' :: r4)) =
      (HeaderStore.readMembers fuel r4).map (fun ms => (k, v) :: ms) := by
  have hshape : HeaderStore.memberChars k v ++ (',' :: r4) =
      '"' :: (k.data.flatMap HeaderStore.escapeChar ++ '"' ::
        (':' :: '"' :: (v.data.flatMap HeaderStore.escapeChar ++ '"' :: (',' :: r4)))) := by
    simp [HeaderStore.memberChars, HeaderStore.quoteString]
  rw [hshape]
  simp only [HeaderStore.readMembers, readStringBody_encode, Option.bind_eq_bind,
    Option.some_bind]
  cases hms : HeaderStore.readMembers fuel r4 <;> simp [hms, String_mk_data]

theorem readMembers_last (fuel : Nat) (k v : String) :
    HeaderStore.readMembers (fuel + 1) (HeaderStore.memberChars k v ++ ['}']) =
      some [(k, v)] := by
  have hshape : HeaderStore.memberChars k v ++ ['}'] =
      '"' :: (k.data.flatMap HeaderStore.escapeChar ++ '"' ::
        (':' :: '"' :: (v.data.flatMap HeaderStore.escapeChar ++ '"' :: ['}']))) := by
    simp [HeaderStore.memberChars, HeaderStore.quoteString]
  rw [hshape]
  simp [HeaderStore.readMembers, readStringBody_encode, String_mk_data]

theorem readMembers_encode :
    ∀ (ps : List (String × String)) (fuel : Nat), ps ≠ [] → ps.length ≤ fuel →
      HeaderStore.readMembers fuel (HeaderStore.encodePairs ps ++ ['}']) = some ps
  | [], _, h, _ => absurd rfl h
  | [p], fuel, _, hlen => by
      obtain ⟨f, rfl⟩ : ∃ f, fuel = f + 1 := ⟨fuel - 1, by simp at hlen; omega⟩
      rw [show HeaderStore.encodePairs [p] = HeaderStore.memberChars p.1 p.2 from rfl]
      exact readMembers_last f p.1 p.2
  | p :: q :: ps, fuel, _, hlen => by
      obtain ⟨f, rfl⟩ : ∃ f, fuel = f + 1 := ⟨fuel - 1, by simp at hlen; omega⟩
      rw [show HeaderStore.encodePairs (p :: q :: ps) =
        HeaderStore.memberChars p.1 p.2 ++ ',' :: HeaderStore.encodePairs (q :: ps)
        from rfl]
      rw [List.append_assoc, List.cons_append, readMembers_cons]
      rw [readMembers_encode (q :: ps) f (by simp) (by simp at hlen ⊢; omega)]
      rfl

theorem encodePairs_length :
    ∀ ps : List (String × String), ps.length ≤ (HeaderStore.encodePairs ps).length
  | [] => by simp [HeaderStore.encodePairs]
  | [p] => by
      simp [HeaderStore.encodePairs, HeaderStore.memberChars, HeaderStore.quoteString]
  | p :: q :: ps => by
      have ih := encodePairs_length (q :: ps)
      rw [show HeaderStore.encodePairs (p :: q :: ps) =
        HeaderStore.memberChars p.1 p.2 ++ ',' :: HeaderStore.encodePairs (q :: ps)
        from rfl]
      simp only [List.length_append, List.length_cons]
      simp at ih ⊢
      omega

/-! Claim theorems. -/

/-- C3: updateField(section, field, value) switches the active section to
the edited section exactly when that section differs from the current
active one and the value is non-empty (not null, not the empty string,
not false); otherwise the active section is unchanged. -/
theorem updateField_active_section (p : Sectioned.ParsedReceipt)
    (sf : Sectioned.SectionField) (v : JsVal) :
    (Sectioned.sectionOf sf ≠ p.active_section ∧ v ≠ .null ∧ v ≠ .str "" ∧
        v ≠ .bool false →
      (Sectioned.updateField p sf v).active_section = Sectioned.sectionOf sf) ∧
    (v = .null ∨ v = .str "" ∨ v = .bool false ∨ Sectioned.sectionOf sf = p.active_section →
      (Sectioned.updateField p sf v).active_section = p.active_section) := by
  constructor
  · intro h
    unfold Sectioned.updateField
    rw [if_pos h]
  · intro h
    unfold Sectioned.updateField
    rw [if_neg ?_]
    rintro ⟨h1, h2, h3, h4⟩
    rcases h with h | h | h | h
    · exact h2 h
    · exact h3 h
    · exact h4 h
    · exact h1 h

/-- Witness for C3 at a concrete input: editing the principal guest of
the non-active hospitality section with a non-empty string switches the
active section, and writing null into it does not. -/
theorem updateField_active_section_witness :
    (Sectioned.updateField Sectioned.createEmptyParsedReceipt
        (.hospitality .principal_guest) (.str "Dr Smith")).active_section =
      Sectioned.ActiveSection.hospitality ∧
    (Sectioned.updateField Sectioned.createEmptyParsedReceipt
        (.hospitality .principal_guest) JsVal.null).active_section =
      Sectioned.ActiveSection.other := by
  constructor
  · exact (updateField_active_section _ _ _).1 (by decide)
  · exact (updateField_active_section _ _ _).2 (Or.inl rfl)

/-- C4: updateField(section, field, value) changes no stored field other
than the one it names: every field of the three other sections and every
other field of the edited section keeps its value. -/
theorem updateField_frame (p : Sectioned.ParsedReceipt)
    (sf sf' : Sectioned.SectionField) (v : JsVal) (h : sf' ≠ sf) :
    Sectioned.getField (Sectioned.updateField p sf v).fields sf' =
      Sectioned.getField p.fields sf' := by
  rw [updateField_fields_eq]
  exact getField_setField_ne p.fields sf sf' v h

/-- Witness for C4 at a concrete input: editing the hospitality guest
leaves the other section's date untouched. -/
theorem updateField_frame_witness :
    Sectioned.getField (Sectioned.updateField Sectioned.createEmptyParsedReceipt
        (.hospitality .principal_guest) (.str "Dr Smith")).fields (.other .date) =
      Sectioned.getField Sectioned.createEmptyParsedReceipt.fields (.other .date) :=
  updateField_frame _ _ _ _ (by decide)

/-- C6: when the re-parse call for receipt i fails, handleReparse leaves
receipt i's parsed record at its prior value, stores the error message
on it with processing false, and leaves every other receipt entirely
unchanged. -/
theorem handleReparse_failure (rs : List Flat.Receipt) (i : Nat)
    (r : Flat.Receipt) (e : String) (hr : rs[i]? = some r) :
    (Flat.handleReparse rs i (.error e))[i]? =
      some { r with processing := false, error := some e } ∧
    ∀ j, j ≠ i → (Flat.handleReparse rs i (.error e))[j]? = rs[j]? := by
  constructor
  · unfold Flat.handleReparse
    simp [jsMapIdx_get?, hr]
  · intro j hj
    unfold Flat.handleReparse
    simp only [jsMapIdx_get?]
    cases rs[j]? <;> simp [hj]

/-- Witness for C6 at a concrete one-receipt list. -/
theorem handleReparse_failure_witness :
    (Flat.handleReparse [sampleFlatReceipt] 0 (.error ("Failed to reparse")))[0]? =
      some { sampleFlatReceipt with processing := false,
                                    error := some ("Failed to reparse") } ∧
    ∀ j, j ≠ 0 →
      (Flat.handleReparse [sampleFlatReceipt] 0 (.error ("Failed to reparse")))[j]? =
        ([sampleFlatReceipt] : List Flat.Receipt)[j]? :=
  handleReparse_failure [sampleFlatReceipt] 0 sampleFlatReceipt ("Failed to reparse") rfl

/-- C7: the defaulted records produced without model data.  The sectioned
createEmptyParsedReceipt conforms to the claim: every section field is
present, string and numeric fields are null, boolean fields are false,
and confidence is low.  The flat retry-exhaustion placeholder emptyParsed
does not: the object literal omits the is_non_uk_eu key its declared
ParsedReceipt type requires, so that boolean field is absent (undefined
at runtime, none here) rather than false — the code contradicts its own
type annotation. -/
theorem defaulted_records_shape (today : String) :
    (Flat.emptyParsed today).is_non_uk_eu = none ∧
    (Flat.emptyParsed today).confidence = "low" ∧
    (Flat.emptyParsed today).is_group_expense = false ∧
    (Flat.emptyParsed today).guest_count = none ∧
    (Flat.emptyParsed today).amount = 0 ∧
    Sectioned.createEmptyParsedReceipt.confidence = "low" ∧
    Sectioned.createEmptyParsedReceipt.raw_description = "" ∧
    Sectioned.createEmptyFields.travel_general.is_return = .bool false ∧
    Sectioned.createEmptyFields.travel_general.is_non_uk_eu = .bool false ∧
    Sectioned.createEmptyFields.travel_mileage.is_return = .bool false ∧
    Sectioned.createEmptyFields.hospitality.non_college_staff = .bool false ∧
    Sectioned.createEmptyFields.other.is_non_uk_eu = .bool false ∧
    Sectioned.createEmptyFields.travel_general.date = .null ∧
    Sectioned.createEmptyFields.travel_mileage.miles = .null ∧
    Sectioned.createEmptyFields.hospitality.principal_guest = .null ∧
    Sectioned.createEmptyFields.other.sterling_total = .null :=
  ⟨rfl, rfl, rfl, rfl, rfl, rfl, rfl, rfl, rfl, rfl, rfl, rfl, rfl, rfl, rfl, rfl⟩

/-- C9: in every UI state in which the current receipt's processing flag
is true, no user interaction with the re-parse controls issues a
re-parse request: the sectioned chat block (input and Apply button) is
unmounted while the receipt is processing, so its handlers cannot run,
and the flat Re-parse button is disabled by its processing conjunct; so
a second call can never be issued for a receipt whose extraction or
refine call is in flight. -/
theorem no_reparse_while_processing (e : ReviewUI.UIEvent)
    (s : ReviewUI.ReviewState) (h : s.processing = true) :
    ReviewUI.issuesReparse e s = false := by
  cases e <;>
    simp [ReviewUI.issuesReparse, ReviewUI.chatMounted, ReviewUI.applyDisabled, h]

/-- Witness for C9 at a concrete in-flight state with a nonempty input,
covering all three control paths. -/
theorem no_reparse_while_processing_witness :
    ReviewUI.issuesReparse .clickApply
      { userInput := "divide total by 6", hasParsed := true, processing := true } = false ∧
    ReviewUI.issuesReparse (.keyDown ("Enter"))
      { userInput := "divide total by 6", hasParsed := true, processing := true } = false ∧
    ReviewUI.issuesReparse .clickReparse
      { userInput := "divide total by 6", hasParsed := true, processing := true } = false :=
  ⟨no_reparse_while_processing .clickApply _ rfl,
   no_reparse_while_processing (.keyDown ("Enter")) _ rfl,
   no_reparse_while_processing .clickReparse _ rfl⟩

/-- C2: document generation is deterministic — two invocations of the
generator on the same header, the same ordered approved-receipt list and
the same generation date produce identical filled-document content and
identical output filenames, whatever the archive metadata timestamps of
the two runs are. -/
theorem generate_deterministic (h : Sectioned.HeaderInfo)
    (receipts : List Gen.GenReceipt) (genDate : String) (t1 t2 : Nat) :
    (Gen.createOutputZip h receipts genDate t1).map Gen.Archive.documentCells =
      (Gen.createOutputZip h receipts genDate t2).map Gen.Archive.documentCells ∧
    (Gen.createOutputZip h receipts genDate t1).map (fun a => a.files.map Prod.fst) =
      (Gen.createOutputZip h receipts genDate t2).map (fun a => a.files.map Prod.fst) := by
  unfold Gen.createOutputZip
  cases Gen.fillExcelTemplate h receipts genDate <;> simp [Except.map]

/-! Lemmas for processOne and processAllReceipts. -/

theorem retryLoop_all_fail (call : Nat → Except String Flat.ServerData)
    (e1 e2 e3 : String) (h1 : call 1 = .error e1) (h2 : call 2 = .error e2)
    (h3 : call 3 = .error e3) :
    Flat.retryLoop call 1 "" Flat.MAX_RETRIES = .error e3 := by
  simp [Flat.MAX_RETRIES, Flat.retryLoop, h1, h2, h3]

theorem processOne_get?_ne (call : Nat → Except String Flat.ServerData)
    (today : String) (rs : List Flat.Receipt) (idx j : Nat) (h : j ≠ idx) :
    (Flat.processOne call today rs idx)[j]? = rs[j]? := by
  unfold Flat.processOne
  cases Flat.retryLoop call 1 "" Flat.MAX_RETRIES with
  | ok d =>
      simp only [jsMapIdx_get?]
      cases rs[j]? <;> simp [h]
  | error e =>
      simp only [jsMapIdx_get?]
      cases rs[j]? <;> simp [h]

theorem processOne_length (call : Nat → Except String Flat.ServerData)
    (today : String) (rs : List Flat.Receipt) (idx : Nat) :
    (Flat.processOne call today rs idx).length = rs.length := by
  unfold Flat.processOne
  cases Flat.retryLoop call 1 "" Flat.MAX_RETRIES <;> exact jsMapIdx_length _ _

theorem foldl_processOne_get?_ne (oracle : Nat → Nat → Except String Flat.ServerData)
    (today : String) :
    ∀ (tp : List (Nat × Flat.Receipt)) (acc : List Flat.Receipt) (j : Nat),
      (∀ p ∈ tp, p.1 ≠ j) →
      (tp.foldl (fun acc p => Flat.processOne (oracle p.1) today acc p.1) acc)[j]? = acc[j]?
  | [], acc, j, _ => rfl
  | p :: tp, acc, j, h => by
      simp only [List.foldl_cons]
      rw [foldl_processOne_get?_ne oracle today tp _ j
        (fun q hq => h q (List.mem_cons_of_mem p hq))]
      exact processOne_get?_ne _ _ _ _ _
        (fun e => (h p (List.mem_cons_self p tp)) e.symm)

/-- C1: when every one of the MAX_RETRIES = 3 attempts of the extraction
call fails, processOne (the per-receipt worker of processAllReceipts)
gives the receipt the emptyParsed placeholder — whose confidence is low
— and a non-empty error message, with processing cleared; the function
is total and returns a receipt list of the same length, so no failure
ever propagates to the caller. -/
theorem processOne_retry_exhaustion (call : Nat → Except String Flat.ServerData)
    (today : String) (rs : List Flat.Receipt) (idx : Nat) (r : Flat.Receipt)
    (hr : rs[idx]? = some r)
    (hfail : ∀ a, 1 ≤ a → a ≤ Flat.MAX_RETRIES → ∃ e, call a = Except.error e) :
    ∃ msg, msg ≠ "" ∧
      (Flat.processOne call today rs idx)[idx]? =
        some { r with parsed := some (Flat.emptyParsed today), processing := false,
                      error := some msg } ∧
      (Flat.emptyParsed today).confidence = "low" ∧
      (Flat.processOne call today rs idx).length = rs.length := by
  obtain ⟨e1, h1⟩ := hfail 1 (by omega) (by decide)
  obtain ⟨e2, h2⟩ := hfail 2 (by omega) (by decide)
  obtain ⟨e3, h3⟩ := hfail 3 (by omega) (by decide)
  refine ⟨"Failed after " ++ toString Flat.MAX_RETRIES ++ " attempts: " ++ e3,
    ?_, ?_, rfl, processOne_length call today rs idx⟩
  · simp [String.ext_iff, String.data_append, Flat.MAX_RETRIES]
  · unfold Flat.processOne
    rw [retryLoop_all_fail call e1 e2 e3 h1 h2 h3]
    simp [jsMapIdx_get?, hr]

/-- Witness for C1: a single unprocessed receipt whose three attempts
all fail receives the placeholder and the error message. -/
theorem processOne_retry_exhaustion_witness :
    ∃ msg, msg ≠ "" ∧
      (Flat.processOne (fun _ => .error ("HTTP 500")) "2026-01-01"
          [sampleFlatReceipt] 0)[0]? =
        some { sampleFlatReceipt with
                 parsed := some (Flat.emptyParsed "2026-01-01"),
                 processing := false, error := some msg } ∧
      (Flat.emptyParsed "2026-01-01").confidence = "low" ∧
      (Flat.processOne (fun _ => .error ("HTTP 500")) "2026-01-01"
          [sampleFlatReceipt] 0).length = ([sampleFlatReceipt] : List Flat.Receipt).length :=
  processOne_retry_exhaustion (fun _ => .error ("HTTP 500")) "2026-01-01"
    [sampleFlatReceipt] 0 sampleFlatReceipt rfl
    (fun _ _ _ => ⟨"HTTP 500", rfl⟩)

/-- C10: processAllReceipts submits exactly the receipts that have no
parsed record and carry an attached file, and any receipt that already
has a parsed record is left entirely unchanged by the run. -/
theorem processAllReceipts_frame (oracle : Nat → Nat → Except String Flat.ServerData)
    (today : String) (rs : List Flat.Receipt) (i : Nat) (r : Flat.Receipt)
    (hr : rs[i]? = some r) :
    (i ∈ (Flat.toProcess rs).map Prod.fst ↔ r.parsed = none ∧ r.file ≠ none) ∧
    (r.parsed ≠ none → (Flat.processAllReceipts oracle today rs)[i]? = some r) := by
  have hchar : ∀ p, p ∈ Flat.toProcess rs → p.1 = i → r.parsed = none ∧ r.file ≠ none := by
    intro p hp hpi
    obtain ⟨hmem, hpred⟩ := List.mem_filter.mp hp
    obtain ⟨k, hk, hg⟩ := (mem_enumFrom rs 0 p).mp hmem
    have hki : k = i := by omega
    subst hki
    rw [hr] at hg
    have hpr : p.2 = r := ((Option.some.injEq _ _).mp hg).symm
    rw [hpr] at hpred
    simp only [Bool.and_eq_true, Option.isNone_iff_eq_none,
      Option.isSome_iff_ne_none] at hpred
    exact hpred
  constructor
  · constructor
    · intro hi
      obtain ⟨p, hp, hpi⟩ := List.mem_map.mp hi
      exact hchar p hp hpi
    · rintro ⟨hparsed, hfile⟩
      refine List.mem_map.mpr ⟨(i, r), ?_, rfl⟩
      refine List.mem_filter.mpr
        ⟨(mem_enumFrom rs 0 (i, r)).mpr ⟨i, by omega, hr⟩, ?_⟩
      simp [hparsed, Option.isSome_iff_ne_none, hfile]
  · intro hparsed
    have hne : ∀ p ∈ Flat.toProcess rs, p.1 ≠ i := by
      intro p hp hpi
      exact hparsed (hchar p hp hpi).1
    unfold Flat.processAllReceipts
    rw [foldl_processOne_get?_ne oracle today _ _ i hne]
    have hany : (Flat.toProcess rs).any (fun p => p.1 = i) = false := by
      simp only [List.any_eq_false, decide_eq_true_eq]
      exact hne
    simp [jsMapIdx_get?, hr, hany]

/-- Witness for C10: with one already-parsed receipt and one fresh one,
only the fresh receipt's index is submitted and the parsed receipt is
unchanged by the run. -/
theorem processAllReceipts_frame_witness :
    (0 ∈ (Flat.toProcess [sampleParsedFlatReceipt, sampleFlatReceipt]).map Prod.fst ↔
      sampleParsedFlatReceipt.parsed = none ∧ sampleParsedFlatReceipt.file ≠ none) ∧
    (sampleParsedFlatReceipt.parsed ≠ none →
      (Flat.processAllReceipts (fun _ _ => .error ("HTTP 500")) "2026-01-01"
          [sampleParsedFlatReceipt, sampleFlatReceipt])[0]? =
        some sampleParsedFlatReceipt) :=
  processAllReceipts_frame (fun _ _ => .error ("HTTP 500")) "2026-01-01"
    [sampleParsedFlatReceipt, sampleFlatReceipt] 0 sampleParsedFlatReceipt rfl

/-- C5: when a re-parse with a user correction succeeds, the receipt's
new parsed record is the refine result, and every field value in the
three sections other than the one being corrected equals its value in
the prior record. -/
theorem handleReparse_refine_preserves (rs : List Sectioned.Receipt) (i : Nat)
    (r : Sectioned.Receipt) (prior : Sectioned.ParsedReceipt)
    (target : Sectioned.ActiveSection) (corrected : Sectioned.TypeSpecificFields)
    (conf desc : String) (hr : rs[i]? = some r) (_hp : r.parsed = some prior) :
    (Sectioned.handleReparse rs i
        (.ok (Sectioned.refine prior target corrected conf desc)))[i]? =
      some { r with parsed := some (Sectioned.refine prior target corrected conf desc),
                    processing := false, error := none } ∧
    ∀ sf, Sectioned.sectionOf sf ≠ target →
      Sectioned.getField (Sectioned.refine prior target corrected conf desc).fields sf =
        Sectioned.getField prior.fields sf := by
  constructor
  · unfold Sectioned.handleReparse
    simp [jsMapIdx_get?, hr]
  · intro sf hsf
    unfold Sectioned.refine
    exact getField_replaceSection_ne prior.fields corrected target sf hsf

/-- Witness for C5: correcting the hospitality section of a receipt that
holds the empty parsed record leaves the travel date of the prior record
in place. -/
theorem handleReparse_refine_preserves_witness :
    (Sectioned.handleReparse [sampleSectionedReceipt] 0
        (.ok (Sectioned.refine Sectioned.createEmptyParsedReceipt .hospitality
          sampleCorrectedFields "high" "four guests")))[0]? =
      some { sampleSectionedReceipt with
               parsed := some (Sectioned.refine Sectioned.createEmptyParsedReceipt
                 .hospitality sampleCorrectedFields "high" "four guests"),
               processing := false, error := none } ∧
    ∀ sf, Sectioned.sectionOf sf ≠ Sectioned.ActiveSection.hospitality →
      Sectioned.getField (Sectioned.refine Sectioned.createEmptyParsedReceipt
          .hospitality sampleCorrectedFields "high" "four guests").fields sf =
        Sectioned.getField Sectioned.createEmptyParsedReceipt.fields sf :=
  handleReparse_refine_preserves [sampleSectionedReceipt] 0 sampleSectionedReceipt
    Sectioned.createEmptyParsedReceipt .hospitality sampleCorrectedFields
    "high" "four guests" rfl rfl

/-- C8: storing any HeaderInfo record to browser-local storage as a JSON
blob and reloading it on the next session start yields the record
verbatim — the parse of the stringified object is the original record,
and the load path applies no migration or transformation. -/
theorem header_local_storage_roundtrip (h : HeaderStore.HeaderInfo) :
    HeaderStore.loadHeader (HeaderStore.saveHeader h) = some h := by
  unfold HeaderStore.loadHeader HeaderStore.saveHeader HeaderStore.parseHeaderText
    HeaderStore.stringifyHeader
  have hlen : (HeaderStore.headerPairs h).length ≤
      (HeaderStore.encodePairs (HeaderStore.headerPairs h) ++ ['}']).length + 1 := by
    have := encodePairs_length (HeaderStore.headerPairs h)
    simp only [List.length_append, List.length_cons, List.length_nil]
    omega
  rw [show (String.mk ('{' ::
      (HeaderStore.encodePairs (HeaderStore.headerPairs h) ++ ['}']))).data =
    '{' :: (HeaderStore.encodePairs (HeaderStore.headerPairs h) ++ ['}']) from rfl]
  simp only []
  rw [readMembers_encode (HeaderStore.headerPairs h) _ (by simp [HeaderStore.headerPairs])
    hlen]
  rfl

